import Mathlib

/-!
Verification development for the DeepScholar reference-extraction core
(`Backend/app/tools/reference_extractor_tool.py`).

Strings are modelled as `List Char` (Python `str` is a sequence of code points).
Python's `re` backtracking engine is modelled by a fuel-indexed executable
matcher `runRE` that returns the list of all successful continuations in
backtracking priority order; the head of that list is the match Python's
engine reports.  Each regular expression literal of the source is translated
into an explicit syntax tree (`RE`), with the flags (`IGNORECASE`, `DOTALL`,
`MULTILINE`) resolved at translation time into the character predicates.
-/

namespace DeepScholar

/-- Python strings as lists of code points. -/
abbrev Str := List Char

/-- Python whitespace (`str.strip`, regex class backslash-s) restricted to
ASCII, which covers every input considered here. -/
def isSpacePy (c : Char) : Bool :=
  c == ' ' || c == '\t' || c == '\n' || c == '\r' || c == '\x0b' || c == '\x0c'

/-- Regex class `[0-9]` / backslash-d (ASCII). -/
def isDigitPy (c : Char) : Bool := '0' ≤ c && c ≤ '9'

/-- Regex class `[A-Z]` without `IGNORECASE`. -/
def isUpperAZ (c : Char) : Bool := 'A' ≤ c && c ≤ 'Z'

/-- Regex class `[a-z]` without `IGNORECASE`. -/
def isLowerAZ (c : Char) : Bool := 'a' ≤ c && c ≤ 'z'

/-- Regex class `[A-Z]` or `[a-z]` under `IGNORECASE` (either case letter). -/
def isLetterAZ (c : Char) : Bool := isUpperAZ c || isLowerAZ c

/-- Python `str.strip()` from the right. -/
def pyStripEnd (s : Str) : Str := (s.reverse.dropWhile isSpacePy).reverse

/-- Python `str.strip()`. -/
def pyStrip (s : Str) : Str := pyStripEnd (s.dropWhile isSpacePy)

/-- Python `str.split(sep)` for a one-character separator: `n` separators
always yield `n + 1` (possibly empty) parts. -/
def pySplitCh (sep : Char) : Str → List Str
  | [] => [[]]
  | c :: rest =>
    if c == sep then [] :: pySplitCh sep rest
    else
      match pySplitCh sep rest with
      | [] => [[c]]
      | l :: ls => (c :: l) :: ls

/-- Python `sep.join(parts)`. -/
def pyJoin (sep : Str) : List Str → Str
  | [] => []
  | [x] => x
  | x :: xs => x ++ sep ++ pyJoin sep xs

/-- Python `lst[-n:]` for `n ≤ len(lst)`. -/
def lastN (n : Nat) (l : List α) : List α := l.drop (l.length - n)

/-- Python `str.startswith`. -/
def strStarts (s pre : Str) : Bool := s.take pre.length == pre

/-- Python `str.endswith`. -/
def strEnds (s suf : Str) : Bool :=
  suf.length ≤ s.length && s.drop (s.length - suf.length) == suf

/-- Python slice `s[a:b]` (for `a ≤ b`). -/
def slice (s : Str) (a b : Nat) : Str := (s.drop a).take (b - a)

/-- Capture-group store: entry `i` holds the span last recorded for group
`i + 1`, or `none` when the group did not participate in the match. -/
abbrev Caps := List (Option (Nat × Nat))

/-- Syntax of the regular-expression fragment used by the source: single
character classes, concatenation, prioritized alternation, numbered capture
groups, greedy and lazy Kleene star, lookahead, and the anchors `^` (without
`MULTILINE`), backslash-Z and `$` (without `MULTILINE`). -/
inductive RE : Type where
  | eps : RE
  | pred : (Char → Bool) → RE
  | cat : RE → RE → RE
  | alt : RE → RE → RE
  | grp : Nat → RE → RE
  | star : Bool → RE → RE
  | look : RE → RE
  | bol : RE
  | eos : RE
  | dollar : RE

/-- Backtracking matcher: all ways `re` can match `s` starting at `pos`, as
`(end-position, captures)` pairs in the priority order of Python's engine
(alternation left first, greedy star longest first, lazy star shortest
first).  An iteration of a star that consumes nothing is cut off, as in
Python's engine; `fuel` bounds recursion depth and is chosen generously by
callers. -/
def runRE (s : Str) : Nat → RE → Nat → Caps → List (Nat × Caps)
  | 0, _, _, _ => []
  | f + 1, re, pos, caps =>
    match re with
    | .eps => [(pos, caps)]
    | .pred p =>
      match s[pos]? with
      | some c => if p c then [(pos + 1, caps)] else []
      | none => []
    | .cat a b => (runRE s f a pos caps).flatMap fun r => runRE s f b r.1 r.2
    | .alt a b => runRE s f a pos caps ++ runRE s f b pos caps
    | .grp i a => (runRE s f a pos caps).map fun r => (r.1, r.2.set (i - 1) (some (pos, r.1)))
    | .star lz a =>
      let step := (runRE s f a pos caps).flatMap fun r =>
        if r.1 = pos then [] else runRE s f (.star lz a) r.1 r.2
      if lz then (pos, caps) :: step else step ++ [(pos, caps)]
    | .look a =>
      match runRE s f a pos caps with
      | [] => []
      | r :: _ => [(pos, r.2)]
    | .bol => if pos = 0 then [(pos, caps)] else []
    | .eos => if pos = s.length then [(pos, caps)] else []
    | .dollar =>
      if pos = s.length ∨ (pos + 1 = s.length ∧ s[pos]? = some '\n') then [(pos, caps)]
      else []

/-- Concatenation of a list of regexes. -/
def reCat (l : List RE) : RE := l.foldr RE.cat RE.eps

/-- A single literal character. -/
def chr (c : Char) : RE := .pred (fun x => x == c)

/-- A literal string. -/
def litS (t : String) : RE := reCat (t.data.map chr)

/-- A literal string under `IGNORECASE`. -/
def litCI (t : String) : RE :=
  reCat (t.data.map fun c => RE.pred (fun x => x.toLower == c.toLower))

/-- Greedy `+`. -/
def rplus (a : RE) : RE := .cat a (.star false a)

/-- Lazy `+?`. -/
def rplusLazy (a : RE) : RE := .cat a (.star true a)

/-- Greedy `?`. -/
def ropt (a : RE) : RE := .alt a .eps

/-- Exactly-n repetition `{n}`. -/
def reps : Nat → RE → RE
  | 0, _ => .eps
  | n + 1, a => .cat a (reps n a)

/-- Class `[^.]`. -/
def nonDot : RE := .pred (fun c => !(c == '.'))

/-- Metacharacter `.` without `DOTALL` (anything but a newline). -/
def anyNoNl : RE := .pred (fun c => !(c == '\n'))

/-- Metacharacter `.` under `DOTALL` (anything). -/
def anyAll : RE := .pred (fun _ => true)

/-- Backslash-s-star. -/
def wsStar : RE := .star false (.pred isSpacePy)

/-- Backslash-d-plus. -/
def digitPlus : RE := rplus (.pred isDigitPy)

/-- Source regex 1 for numbered reference entries (flags: `MULTILINE`):
group 1 or 2 the ordinal, group 3 the entry body starting with a capital. -/
def refPat1 : RE :=
  reCat
    [ .alt (reCat [chr '[', .grp 1 digitPlus, chr ']'])
        (reCat [ropt (chr '('), .grp 2 digitPlus, ropt (chr ')'), chr '.'])
    , rplus (.pred isSpacePy)
    , .grp 3 (reCat
        [ .pred isUpperAZ
        , rplus nonDot
        , rplus (reCat [chr '.', .pred (fun c => !(isDigitPy c)), rplus nonDot]) ]) ]

/-- Subpattern `[A-Z][a-z]+,` ws-star `[A-Z].` shared by the Harvard and the
author-leading reference regexes (no `IGNORECASE` there). -/
def authorRE : RE :=
  reCat [.pred isUpperAZ, rplus (.pred isLowerAZ), chr ',', wsStar, .pred isUpperAZ, chr '.']

/-- Group-3 body `[^.]+` dot `.+?` shared by the Harvard and author-leading
reference regexes. -/
def body23 : RE := reCat [rplus nonDot, chr '.', rplusLazy anyNoNl]

/-- Lookahead terminator shared by the Harvard and author-leading reference
regexes: two newlines, or newline then `[A-Z]`, or end of string. -/
def term23 : RE :=
  .alt (litS "\n\n") (.alt (.cat (chr '\n') (.pred isUpperAZ)) .eos)

/-- Source regex 2, Harvard style (optional author group 1, parenthesized
four-digit year group 2, entry body group 3). -/
def refPat2 : RE :=
  reCat
    [ ropt (.grp 1 (.cat authorRE
        (.star false (reCat [wsStar, litS "and", wsStar, authorRE]))))
    , wsStar, chr '('
    , .grp 2 (reps 4 (.pred isDigitPy))
    , chr ')', ropt (chr '.'), wsStar
    , .grp 3 body23, .look term23 ]

/-- Source regex 3, author-leading style (author list group 1, optional
parenthesized year group 2, entry body group 3). -/
def refPat3 : RE :=
  reCat
    [ .grp 1 (.cat authorRE
        (.star false (reCat
          [ .alt (chr ',') (.alt (litS "and") (chr '&'))
          , wsStar, authorRE ])))
    , wsStar
    , .grp 2 (.cat (ropt (reCat [chr '(', reps 4 (.pred isDigitPy), chr ')'])) (ropt (chr '.')))
    , wsStar
    , .grp 3 body23, .look term23 ]

/-- First bibliography-section regex (flags: inline `(?i)` and `DOTALL`):
heading group 1, section body group 2, then a consumed terminator. -/
def secPat1 : RE :=
  reCat
    [ .grp 1 (.alt (litCI "References") (.alt (litCI "Bibliography")
        (.alt (litCI "Works Cited") (litCI "Literature Cited"))))
    , wsStar, rplus (chr '\n')
    , .grp 2 (.star true anyAll)
    , .alt (litS "\n\n")
        (.alt (reCat [chr '\n', .pred isLetterAZ, rplus (.pred isLetterAZ), wsStar, chr '\n'])
          .dollar) ]

/-- Second bibliography-section regex; identical to the first under
`IGNORECASE` except that its terminator uses `[A-Z]+`. -/
def secPat2 : RE :=
  reCat
    [ .grp 1 (.alt (litCI "REFERENCES") (.alt (litCI "BIBLIOGRAPHY")
        (.alt (litCI "WORKS CITED") (litCI "LITERATURE CITED"))))
    , wsStar, rplus (chr '\n')
    , .grp 2 (.star true anyAll)
    , .alt (litS "\n\n")
        (.alt (reCat [chr '\n', rplus (.pred isLetterAZ), wsStar, chr '\n'])
          .dollar) ]

/-- Regex `^([^.]+)` used to take the author as the leading clause. -/
def authorSearchRE : RE := .cat .bol (.grp 1 (rplus nonDot))

/-- Regex `(?:19|20)` digit `{2}` used to scan for a year. -/
def yearRE : RE :=
  .cat (.alt (litS "19") (litS "20")) (reps 2 (.pred isDigitPy))

/-- DOI regex (flags: `IGNORECASE`): literal `doi`, optional colon,
whitespace, then group 1 `10.` four-or-more digits, dotted numeric
extensions, a slash and a run of non-space non-`)` non-`]` characters. -/
def doiRE : RE :=
  reCat
    [ litCI "doi", ropt (chr ':'), wsStar
    , .grp 1 (reCat
        [ litS "10.", reps 4 (.pred isDigitPy), .star false (.pred isDigitPy)
        , .star false (.cat (chr '.') digitPlus)
        , chr '/'
        , rplus (.pred (fun c => !(isSpacePy c || c == ')' || c == ']'))) ]) ]

/-- First line-start regex of the fallback path. -/
def fbPatA : RE :=
  .alt (reCat [chr '[', digitPlus, chr ']'])
    (.alt (.cat digitPlus (chr '.')) (.alt (chr '[') (chr '(')))

/-- Second line-start regex of the fallback path (`[A-Z][a-z]+,` ws `[A-Z].`). -/
def fbPatB : RE := authorRE

/-- GROBID TEI regex `<biblStruct.+?</biblStruct>` (flags: `DOTALL`). -/
def biblRE : RE := reCat [litS "<biblStruct", rplusLazy anyAll, litS "</biblStruct>"]

/-- GROBID TEI regex `<persName.+?</persName>` (flags: `DOTALL`). -/
def persRE : RE := reCat [litS "<persName", rplusLazy anyAll, litS "</persName>"]

/-- GROBID TEI surname regex (no flags). -/
def surnameRE : RE := reCat [litS "<surname>", .grp 1 (rplusLazy anyNoNl), litS "</surname>"]

/-- GROBID TEI forename regex (no flags). -/
def forenameRE : RE :=
  reCat [litS "<forename", rplusLazy anyNoNl, chr '>', .grp 1 (rplusLazy anyNoNl), litS "</forename>"]

/-- GROBID TEI date regex (no flags). -/
def dateRE : RE :=
  reCat [litS "<date", rplusLazy anyNoNl, chr '>', .grp 1 (reps 4 (.pred isDigitPy)), litS "</date>"]

/-- GROBID TEI title regex (no flags). -/
def titleRE : RE :=
  reCat [litS "<title", rplusLazy anyNoNl, chr '>', .grp 1 (rplusLazy anyNoNl), litS "</title>"]

/-- GROBID TEI DOI identifier regex (no flags). -/
def idnoRE : RE :=
  reCat [litS "<idno", rplusLazy anyNoNl, litS "type=\"DOI\">", .grp 1 (rplusLazy anyNoNl), litS "</idno>"]

/-- One reported match: overall span plus capture store. -/
structure MatchRes where
  mstart : Nat
  mstop : Nat
  caps : Caps
deriving DecidableEq

/-- Generous recursion-depth budget for `runRE` (fuel bounds only the depth
of the backtracking search, which is linear in the input length with a
constant bounded by the nesting of the translated patterns). -/
def engineFuel (s : Str) : Nat := 1000 * (s.length + 2)

/-- Fresh capture store (three groups suffice for every source pattern). -/
def caps0 : Caps := [none, none, none]

/-- Python `re.search` scanning from `pos` with `fuel` positions left. -/
def reSearchFrom (s : Str) (re : RE) : Nat → Nat → Option MatchRes
  | 0, _ => none
  | f + 1, pos =>
    match runRE s (engineFuel s) re pos caps0 with
    | r :: _ => some ⟨pos, r.1, r.2⟩
    | [] => reSearchFrom s re f (pos + 1)

/-- Python `re.search`: leftmost match, preferred backtracking result. -/
def reSearch (s : Str) (re : RE) : Option MatchRes := reSearchFrom s re (s.length + 1) 0

/-- Python `re.finditer` loop from a given position with a step budget. -/
def reFindIterFrom (s : Str) (re : RE) : Nat → Nat → List MatchRes
  | 0, _ => []
  | f + 1, pos =>
    match reSearchFrom s re (s.length + 1 - pos) pos with
    | none => []
    | some m =>
      m :: reFindIterFrom s re f (if m.mstop = m.mstart then m.mstop + 1 else m.mstop)

/-- Python `re.finditer`: non-overlapping matches left to right. -/
def reFindIter (s : Str) (re : RE) : List MatchRes := reFindIterFrom s re (s.length + 2) 0

/-- Truthiness of Python `re.match(...)` at position 0. -/
def reMatchB (s : Str) (re : RE) : Bool := !(runRE s (engineFuel s) re 0 caps0).isEmpty

/-- `match.group(i)` for `i ≥ 1`: `none` models Python `None`. -/
def groupStr (s : Str) (m : MatchRes) (i : Nat) : Option Str :=
  match m.caps[i - 1]? with
  | some (some (a, b)) => some (slice s a b)
  | _ => none

/-- Python truthiness of an optional string (`None` and `""` are falsy). -/
def pyTruthy : Option Str → Bool
  | none => false
  | some s => !s.isEmpty

/-- One parsed citation, modelling the per-reference dictionaries of the
source.  A field holding `none` models an absent dictionary key; `some []`
models a key present with the empty string.  The `text` key is present in
every dictionary the source constructs, hence is not optional. -/
structure Reference where
  ref_num : Option Str := none
  text : Str
  author : Option Str := none
  year : Option Str := none
  title : Option Str := none
  doi : Option Str := none
deriving DecidableEq

/-- The record built for one reference-pattern match (source lines 92 to
113): kept only when groups 1 and 3 are truthy; `ref_num` is
`group(1) or group(2)` stripped when truthy; `author`, `year`, `doi` are
scans over the stripped group-3 body defaulting to the empty string. -/
def mkPatternRef (sec : Str) (m : MatchRes) : Option Reference :=
  let g1 := groupStr sec m 1
  let g3 := groupStr sec m 3
  if pyTruthy g1 && pyTruthy g3 then
    let ref_num := if pyTruthy g1 then g1 else groupStr sec m 2
    let ref_text := pyStrip (g3.getD [])
    let author :=
      match reSearch ref_text authorSearchRE with
      | some am => pyStrip ((groupStr ref_text am 1).getD [])
      | none => []
    let year :=
      match reSearch ref_text yearRE with
      | some ym => slice ref_text ym.mstart ym.mstop
      | none => []
    let doi :=
      match reSearch ref_text doiRE with
      | some dm => (groupStr ref_text dm 1).getD []
      | none => []
    some
      { ref_num := some (if pyTruthy ref_num then pyStrip (ref_num.getD []) else [])
        text := ref_text
        author := some author
        year := some year
        doi := some doi }
  else none

/-- The three reference-entry regexes in source order. -/
def reference_patterns : List RE := [refPat1, refPat2, refPat3]

/-- The heading-based bibliography-section search (source lines 57 to 67):
first matching section regex wins, yielding its group 2. -/
def locate_ref_section (text : Str) : Option Str :=
  match reSearch text secPat1 with
  | some m => some ((groupStr text m 2).getD [])
  | none =>
    match reSearch text secPat2 with
    | some m => some ((groupStr text m 2).getD [])
    | none => none

/-- The last `min(500, line count)` lines of the document, used when no
heading matched (source lines 69 to 74). -/
def last_lines_fallback (text : Str) : Str :=
  let lines := pySplitCh '\n' text
  pyJoin ['\n'] (lastN (min 500 lines.length) lines)

/-- The bibliography section the parser works on: the heading-located
section when found and non-empty (Python truthiness of `ref_section`),
otherwise the last-lines fallback. -/
def ref_section_of (text : Str) : Str :=
  match locate_ref_section text with
  | some s => if s.isEmpty then last_lines_fallback text else s
  | none => last_lines_fallback text

/-- Fallback test whether a stripped line starts a new entry (source line
126). -/
def starts_new_ref (line : Str) : Bool := reMatchB line fbPatA || reMatchB line fbPatB

/-- The dictionary the fallback path emits: only the `text` key. -/
def fb_ref (t : Str) : Reference := { text := t }

/-- The fallback line-accumulation loop (source lines 116 to 137), with the
accumulator `current_ref` made explicit. -/
def fallback_refs_loop : List Str → Str → List Reference
  | [], cur => if cur.isEmpty then [] else [fb_ref cur]
  | l :: ls, cur =>
    let line := pyStrip l
    if line.isEmpty then fallback_refs_loop ls cur
    else if starts_new_ref line then
      (if cur.isEmpty then [] else [fb_ref cur]) ++ fallback_refs_loop ls line
    else fallback_refs_loop ls (cur ++ ' ' :: line)

/-- The records one reference regex contributes on the section. -/
def pattern_family_refs (sec : Str) (p : RE) : List Reference :=
  (reFindIter sec p).filterMap (mkPatternRef sec)

/-- `_extract_references_with_patterns` (source lines 44 to 139): locate the
section, accumulate the matches of all three reference regexes into one
list, and run the fallback only when that list is empty and the section is
truthy. -/
def extract_references_with_patterns (text : Str) : List Reference :=
  let sec := ref_section_of text
  let references := reference_patterns.foldl (fun acc p => acc ++ pattern_family_refs sec p) []
  if references.isEmpty && !sec.isEmpty then fallback_refs_loop (pySplitCh '\n' sec) []
  else references

/-- The record built for the `i`-th (1-based) `biblStruct` element of the
TEI response (source lines 177 to 225). -/
def grobid_ref_of (i : Nat) (refXml : Str) : Reference :=
  let authors := (reFindIter refXml persRE).filterMap fun pm =>
    let pxml := slice refXml pm.mstart pm.mstop
    match reSearch pxml surnameRE with
    | none => none
    | some sm =>
      let sn := (groupStr pxml sm 1).getD []
      match reSearch pxml forenameRE with
      | some fm => some (sn ++ (", ").data ++ (groupStr pxml fm 1).getD [])
      | none => some sn
  let author := pyJoin (("; ").data) authors
  let year :=
    match reSearch refXml dateRE with
    | some m => (groupStr refXml m 1).getD []
    | none => []
  let title :=
    match reSearch refXml titleRE with
    | some m => (groupStr refXml m 1).getD []
    | none => []
  let doi :=
    match reSearch refXml idnoRE with
    | some m => (groupStr refXml m 1).getD []
    | none => []
  let parts : List Str :=
    (if author.isEmpty then [] else [author]) ++
    (if year.isEmpty then [] else ['(' :: (year ++ [')'])]) ++
    (if title.isEmpty then [] else [title]) ++
    (if doi.isEmpty then [] else [("DOI: ").data ++ doi])
  { ref_num := some (Nat.repr i).data
    author := some author
    year := some year
    title := some title
    doi := some doi
    text := pyJoin ((". ").data) parts }

/-- TEI parsing of `_extract_references_with_grobid` (source lines 175 to
227): one record per `biblStruct` match, numbered from 1. -/
def grobid_parse_refs (tei : Str) : List Reference :=
  ((reFindIter tei biblRE).enum).map fun r => grobid_ref_of (r.1 + 1) (slice tei r.2.mstart r.2.mstop)

/-- The result dictionary of `PDFTextExtractionTool._run` as the orchestrator
reads it: an optional `error` key and an optional `content` key. -/
structure PdfToolResult where
  error : Option Str := none
  content : Option Str := none
deriving DecidableEq

/-- Outcome of the network part of `_download_pdf_if_url` on a URL input,
fixed by the environment: success; a failure before the temporary file is
created (`requests.get` / `raise_for_status`); or a failure while streaming
the body after the temporary file exists on disk. -/
inductive DlOutcome where
  | okDl : DlOutcome
  | failBeforeTemp : Str → DlOutcome
  | failDuringWrite : Str → DlOutcome
deriving DecidableEq

/-- Environment fixing the configuration and the outcomes of the external
collaborators for one `_run` call: the `use_grobid` flag, the download
outcome, whether a non-temporary input path exists on disk, the GROBID HTTP
outcome (TEI body or request error), the PDF-text-tool outcome, and whether
`os.unlink` on the temporary file succeeds. -/
structure Env where
  use_grobid : Bool
  dl : DlOutcome
  local_pdf_exists : Bool
  grobid_http : Except Str Str
  pdfTool : Except Str PdfToolResult
  unlink_ok : Bool

/-- Python `input_source.startswith(("http://", "https://"))`. -/
def is_url (s : Str) : Bool := strStarts s (("http://").data) || strStarts s (("https://").data)

/-- The path component of `urllib.parse.urlparse` for the simple URLs
considered here: everything from the first slash after the authority up to
the query or fragment. -/
def urlparse_path (s : Str) : Str :=
  match s.dropWhile (fun c => !(c == ':')) with
  | ':' :: '/' :: '/' :: rest =>
    let afterHost := rest.dropWhile (fun c => !(c == '/' || c == '?' || c == '#'))
    match afterHost with
    | '/' :: _ => afterHost.takeWhile (fun c => !(c == '?' || c == '#'))
    | _ => []
  | _ => s.takeWhile (fun c => !(c == '?' || c == '#'))

/-- The PDF-branch condition of `_run` (source lines 308 to 311). -/
def is_pdf_input (s : Str) : Bool :=
  strEnds s ((".pdf").data) || (is_url s && strEnds (urlparse_path s) ((".pdf").data))

/-- Message wrapper of `_download_pdf_if_url` re-raising a request failure. -/
def msg_dl_fail (m : Str) : Str := ("Lỗi khi tải PDF: ").data ++ m

/-- Message of the GROBID request-exception wrapper. -/
def msg_grobid_api (m : Str) : Str := ("Lỗi GROBID API: ").data ++ m

/-- Message of the generic GROBID exception wrapper. -/
def msg_grobid_wrap (m : Str) : Str :=
  ("Lỗi khi trích xuất tài liệu tham khảo với GROBID: ").data ++ m

/-- Message of the `FileNotFoundError` raised when the PDF path does not
exist (the concrete path interpolated by the source is abstracted away). -/
def msg_pdf_not_found : Str := ("Không tìm thấy file PDF").data

/-- `BaseTool.handle_error`: the message returned to the caller for a caught
exception, always carrying a fixed non-empty prefix. -/
def handle_error (e : Str) : Str := ("Lỗi: Lỗi trong reference_extractor_tool: ").data ++ e

/-- `_download_pdf_if_url` (source lines 239 to 274): returns
`(raised-or-is_temp, temp file on disk afterwards)`.  A non-URL input is
passed through; a URL input follows the environment's download outcome; the
temporary file is created with `delete=False` before the body is streamed,
so a failure during streaming leaves it on disk while the function raises. -/
def download_pdf_if_url (env : Env) (input_source : Str) : Except Str Bool × Bool :=
  if !(is_url input_source) then (.ok false, false)
  else
    match env.dl with
    | .okDl => (.ok true, true)
    | .failBeforeTemp m => (.error (msg_dl_fail m), false)
    | .failDuringWrite m => (.error (msg_dl_fail m), true)

/-- `_extract_references_with_grobid` (source lines 141 to 237) with the
HTTP exchange fixed by the environment: raises when the file does not exist
or the service call fails, otherwise parses the TEI body. -/
def extract_references_with_grobid (env : Env) (file_exists : Bool) :
    Except Str (List Reference) :=
  if !file_exists then .error (msg_grobid_wrap msg_pdf_not_found)
  else
    match env.grobid_http with
    | .error m => .error (msg_grobid_api m)
    | .ok tei => .ok (grobid_parse_refs tei)

/-- The result dictionary of `_run`: optional `error` and `source` keys
model dictionaries constructed without those keys. -/
structure RunResult where
  error : Option Str := none
  references : List Reference
  count : Nat
  source : Option Str := none
deriving DecidableEq

/-- Truthiness of the `content_text` argument (`if content_text:`). -/
def content_truthy : Option Str → Bool
  | none => false
  | some s => !s.isEmpty

/-- The `try` body of `_run` (source lines 297 to 342), returning the
outcome (a result or a raised message), the value of the `is_temp_file`
variable at exit, and whether the temporary file is on disk at exit.  The
tuple assignment from `_download_pdf_if_url` happens only when that call
returns, so `is_temp_file` stays `False` when the download raises. -/
def run_try_body (env : Env) (input_source : Str) (content_text : Option Str) :
    Except Str RunResult × Bool × Bool :=
  if content_truthy content_text then
    let references := extract_references_with_patterns (content_text.getD [])
    (.ok { references, count := references.length, source := some (("text_content").data) },
      false, false)
  else if is_pdf_input input_source then
    if env.use_grobid then
      match download_pdf_if_url env input_source with
      | (.error e, fs) => (.error e, false, fs)
      | (.ok is_temp, fs) =>
        let file_exists := if is_temp then fs else env.local_pdf_exists
        match extract_references_with_grobid env file_exists with
        | .error e => (.error e, is_temp, fs)
        | .ok references =>
          (.ok { references, count := references.length, source := some input_source },
            is_temp, fs)
    else
      match env.pdfTool with
      | .error e => (.error e, false, false)
      | .ok pdf_result =>
        if pdf_result.error.isSome && pyTruthy pdf_result.error then
          (.ok { error := pdf_result.error, references := [], count := 0 }, false, false)
        else
          let references := extract_references_with_patterns (pdf_result.content.getD [])
          (.ok { references, count := references.length, source := some input_source },
            false, false)
  else
    let references := extract_references_with_patterns input_source
    (.ok { references, count := references.length, source := some input_source }, false, false)

/-- `_run` (source lines 276 to 358): the `try` body with the `except`
conversion of a raised message through `handle_error` and the `finally`
cleanup of the temporary file (deletion attempted only when `is_temp_file`
is set and the file exists; a failing `os.unlink` leaves it in place).
Returns the result dictionary and whether the temporary file is still on
disk after the call. -/
def run (env : Env) (input_source : Str) (content_text : Option Str) : RunResult × Bool :=
  match run_try_body env input_source content_text with
  | (out, is_temp_file, fs) =>
    let result :=
      match out with
      | .ok r => r
      | .error e => { error := some (handle_error e), references := [], count := 0 }
    let fs2 := if is_temp_file && fs then (if env.unlink_ok then false else fs) else fs
    (result, fs2)

/-- A regex that can only match by consuming at least one non-whitespace
character of `s`, whatever the fuel, position and capture store. -/
def ConsumesNonWs (s : Str) (re : RE) : Prop :=
  ∀ (f pos : Nat) (caps : Caps) (r : Nat × Caps), r ∈ runRE s f re pos caps →
    ∃ k c, pos ≤ k ∧ k < r.1 ∧ s[k]? = some c ∧ isSpacePy c = false

/-- Every capture group numbered 3 inside the regex has a body that consumes
a non-whitespace character (the entry-body groups of all three reference
regexes are group 3). -/
def Grp3NonWs (s : Str) : RE → Prop
  | .cat a b => Grp3NonWs s a ∧ Grp3NonWs s b
  | .alt a b => Grp3NonWs s a ∧ Grp3NonWs s b
  | .grp i a => (i = 3 → ConsumesNonWs s a) ∧ Grp3NonWs s a
  | .star _ a => Grp3NonWs s a
  | .look a => Grp3NonWs s a
  | _ => True

/-- The capture store's slot for group 3, when set, spans a non-whitespace
character of `s`. -/
def CapNonWs (s : Str) (caps : Caps) : Prop :=
  ∀ a b, caps[2]? = some (some (a, b)) →
    ∃ k c, a ≤ k ∧ k < b ∧ s[k]? = some c ∧ isSpacePy c = false

/-! Concrete inputs used by the claim witnesses and counterexamples. -/

/-- The exact two-entry numbered input of the spec's testable property. -/
def c6txt : Str := ("[1] Smith, J. A Great Paper. 2020.\n[2] Doe, A. Another Paper. 2019.").data

/-- A single numbered entry with no year and no DOI. -/
def c8txt : Str := ("[1] Smith, J. A Great Paper. More Words.").data

/-- A Harvard-style entry with a `doi:`-prefixed DOI. -/
def c9doc : Str := ("Doe, A. (2020). Title. doi:10.1234/abcd.5678").data

/-- The same entry with the DOI bare (no `doi` prefix). -/
def c9bare : Str := ("Doe, A. (2020). Title. 10.1234/abcd.5678").data

/-- A TEI response with one `biblStruct` carrying no fields at all. -/
def teiEmptyEntry : Str := ("<biblStruct></biblStruct>").data

/-- Environment for the GROBID path answering with `teiEmptyEntry`. -/
def envTei : Env :=
  { use_grobid := true, dl := .okDl, local_pdf_exists := true,
    grobid_http := .ok teiEmptyEntry, pdfTool := .ok {}, unlink_ok := true }

/-- Environment whose download fails while streaming the body, after the
temporary file was created. -/
def envLeak : Env :=
  { use_grobid := true, dl := .failDuringWrite (("stream cut").data), local_pdf_exists := true,
    grobid_http := .ok [], pdfTool := .ok {}, unlink_ok := true }

/-- Environment for the non-GROBID PDF branch whose text acquisition reports
an error. -/
def envPdfErr : Env :=
  { use_grobid := false, dl := .okDl, local_pdf_exists := true,
    grobid_http := .ok [], pdfTool := .ok { error := some (("PDFERR").data) }, unlink_ok := true }

/-- Environment for the GROBID path on a local path that does not exist. -/
def envNoFile : Env :=
  { use_grobid := true, dl := .okDl, local_pdf_exists := false,
    grobid_http := .ok [], pdfTool := .ok {}, unlink_ok := true }

/-- The first record the numbered matcher produces on `c8txt`. -/
def c8ref : Reference :=
  { ref_num := some (("1").data), text := ("Smith, J. A Great Paper. More Words").data,
    author := some (("Smith, J").data), year := some [], title := none, doi := some [] }

/-- The record GROBID parsing produces on `teiEmptyEntry`. -/
def teiRef : Reference :=
  { ref_num := some (("1").data), text := [], author := some [], year := some [],
    title := some [], doi := some [] }

set_option maxRecDepth 200000

set_option maxHeartbeats 1000000

theorem runRE_mono (s : Str) :
    ∀ (f : Nat) (re : RE) (pos : Nat) (caps : Caps) (r : Nat × Caps),
      r ∈ runRE s f re pos caps → pos ≤ r.1 := by
  intro f
  induction f with
  | zero => intro re pos caps r hr; simp [runRE] at hr
  | succ f ih =>
    intro re pos caps r hr
    cases re with
    | eps =>
      simp only [runRE, List.mem_singleton] at hr
      subst hr; exact le_refl _
    | pred p =>
      simp only [runRE] at hr
      rcases hc : s[pos]? with _ | c <;> rw [hc] at hr <;> dsimp only at hr
      · simp at hr
      · by_cases hp : p c
        · rw [if_pos hp] at hr
          simp only [List.mem_singleton] at hr
          subst hr; exact Nat.le_succ _
        · rw [if_neg hp] at hr; simp at hr
    | cat a b =>
      simp only [runRE, List.mem_flatMap] at hr
      obtain ⟨m, hm, hr⟩ := hr
      exact le_trans (ih a pos caps m hm) (ih b m.1 m.2 r hr)
    | alt a b =>
      simp only [runRE, List.mem_append] at hr
      rcases hr with hr | hr
      · exact ih a pos caps r hr
      · exact ih b pos caps r hr
    | grp i a =>
      simp only [runRE, List.mem_map] at hr
      obtain ⟨m, hm, hr⟩ := hr
      have := ih a pos caps m hm
      rw [← hr]
      exact this
    | star lz a =>
      simp only [runRE] at hr
      have hstep : ∀ q ∈ (runRE s f a pos caps).flatMap
          (fun r => if r.1 = pos then [] else runRE s f (.star lz a) r.1 r.2), pos ≤ q.1 := by
        intro q hq
        rcases List.mem_flatMap.mp hq with ⟨m, hm, hq⟩
        by_cases he : m.1 = pos
        · rw [if_pos he] at hq; simp at hq
        · rw [if_neg he] at hq
          exact le_trans (ih a pos caps m hm) (ih (.star lz a) m.1 m.2 q hq)
      split at hr
      · rcases List.mem_cons.mp hr with hr | hr
        · subst hr; exact le_refl _
        · exact hstep r hr
      · rcases List.mem_append.mp hr with hr | hr
        · exact hstep r hr
        · simp only [List.mem_singleton] at hr; subst hr; exact le_refl _
    | look a =>
      simp only [runRE] at hr
      rcases hl : runRE s f a pos caps with _ | ⟨hd, tl⟩ <;> rw [hl] at hr <;> dsimp only at hr
      · simp at hr
      · simp only [List.mem_singleton] at hr; subst hr; exact le_refl _
    | bol =>
      simp only [runRE] at hr
      split at hr
      · simp only [List.mem_singleton] at hr; subst hr; exact le_refl _
      · simp at hr
    | eos =>
      simp only [runRE] at hr
      split at hr
      · simp only [List.mem_singleton] at hr; subst hr; exact le_refl _
      · simp at hr
    | dollar =>
      simp only [runRE] at hr
      split at hr
      · simp only [List.mem_singleton] at hr; subst hr; exact le_refl _
      · simp at hr

theorem reSearchFrom_sound (s : Str) (re : RE) :
    ∀ (f pos : Nat) (m : MatchRes), reSearchFrom s re f pos = some m →
      (m.mstop, m.caps) ∈ runRE s (engineFuel s) re m.mstart caps0 := by
  intro f
  induction f with
  | zero => intro pos m h; simp [reSearchFrom] at h
  | succ f ih =>
    intro pos m h
    rw [reSearchFrom] at h
    rcases hrun : runRE s (engineFuel s) re pos caps0 with _ | ⟨hd, tl⟩ <;> rw [hrun] at h
    · exact ih (pos + 1) m h
    · dsimp only at h
      rw [Option.some.injEq] at h
      subst h
      rw [hrun]
      exact List.mem_cons_self hd tl

theorem reFindIterFrom_sound (s : Str) (re : RE) :
    ∀ (f pos : Nat) (m : MatchRes), m ∈ reFindIterFrom s re f pos →
      (m.mstop, m.caps) ∈ runRE s (engineFuel s) re m.mstart caps0 := by
  intro f
  induction f with
  | zero => intro pos m h; simp [reFindIterFrom] at h
  | succ f ih =>
    intro pos m h
    rw [reFindIterFrom] at h
    rcases hs : reSearchFrom s re (s.length + 1 - pos) pos with _ | m0 <;> rw [hs] at h
    · simp at h
    · dsimp only at h
      rcases List.mem_cons.mp h with h | h
      · subst h
        exact reSearchFrom_sound s re _ pos _ hs
      · exact ih _ m h

theorem reFindIter_sound (s : Str) (re : RE) (m : MatchRes) (h : m ∈ reFindIter s re) :
    (m.mstop, m.caps) ∈ runRE s (engineFuel s) re m.mstart caps0 :=
  reFindIterFrom_sound s re _ 0 m h

theorem capNonWs_caps0 (s : Str) : CapNonWs s caps0 := by
  intro a b h
  simp [caps0] at h

theorem runRE_capNonWs (s : Str) :
    ∀ (f : Nat) (re : RE) (pos : Nat) (caps : Caps) (r : Nat × Caps),
      Grp3NonWs s re → CapNonWs s caps → r ∈ runRE s f re pos caps → CapNonWs s r.2 := by
  intro f
  induction f with
  | zero => intro re pos caps r _ _ hr; simp [runRE] at hr
  | succ f ih =>
    intro re pos caps r hg hc hr
    cases re with
    | eps =>
      simp only [runRE, List.mem_singleton] at hr
      subst hr; exact hc
    | pred p =>
      simp only [runRE] at hr
      rcases hcc : s[pos]? with _ | c <;> rw [hcc] at hr <;> dsimp only at hr
      · simp at hr
      · by_cases hp : p c
        · rw [if_pos hp] at hr
          simp only [List.mem_singleton] at hr
          subst hr; exact hc
        · rw [if_neg hp] at hr; simp at hr
    | cat a b =>
      simp only [runRE, List.mem_flatMap] at hr
      obtain ⟨m, hm, hr⟩ := hr
      exact ih b m.1 m.2 r hg.2 (ih a pos caps m hg.1 hc hm) hr
    | alt a b =>
      simp only [runRE, List.mem_append] at hr
      rcases hr with hr | hr
      · exact ih a pos caps r hg.1 hc hr
      · exact ih b pos caps r hg.2 hc hr
    | grp i a =>
      simp only [runRE, List.mem_map] at hr
      obtain ⟨m, hm, hr⟩ := hr
      have hmc : CapNonWs s m.2 := ih a pos caps m hg.2 hc hm
      rw [← hr]
      intro a' b' hset
      rw [List.getElem?_set] at hset
      by_cases hi : i - 1 = 2
      · rw [if_pos hi] at hset
        by_cases hlen : i - 1 < m.2.length
        · rw [if_pos hlen] at hset
          rw [Option.some.injEq, Option.some.injEq, Prod.mk.injEq] at hset
          obtain ⟨ha, hb⟩ := hset
          subst ha; subst hb
          have hi3 : i = 3 := by omega
          exact hg.1 hi3 f pos caps m hm
        · rw [if_neg hlen] at hset
          exact Option.noConfusion hset
      · rw [if_neg hi] at hset
        exact hmc a' b' hset
    | star lz a =>
      simp only [runRE] at hr
      have hstep : ∀ q ∈ (runRE s f a pos caps).flatMap
          (fun r => if r.1 = pos then [] else runRE s f (.star lz a) r.1 r.2),
          CapNonWs s q.2 := by
        intro q hq
        rcases List.mem_flatMap.mp hq with ⟨m, hm, hq⟩
        by_cases he : m.1 = pos
        · rw [if_pos he] at hq; simp at hq
        · rw [if_neg he] at hq
          exact ih (.star lz a) m.1 m.2 q hg (ih a pos caps m hg hc hm) hq
      split at hr
      · rcases List.mem_cons.mp hr with hr | hr
        · subst hr; exact hc
        · exact hstep r hr
      · rcases List.mem_append.mp hr with hr | hr
        · exact hstep r hr
        · simp only [List.mem_singleton] at hr; subst hr; exact hc
    | look a =>
      simp only [runRE] at hr
      rcases hl : runRE s f a pos caps with _ | ⟨hd, tl⟩ <;> rw [hl] at hr <;> dsimp only at hr
      · simp at hr
      · simp only [List.mem_singleton] at hr
        subst hr
        exact ih a pos caps hd hg hc (by rw [hl]; exact List.mem_cons_self hd tl)
    | bol =>
      simp only [runRE] at hr
      split at hr
      · simp only [List.mem_singleton] at hr; subst hr; exact hc
      · simp at hr
    | eos =>
      simp only [runRE] at hr
      split at hr
      · simp only [List.mem_singleton] at hr; subst hr; exact hc
      · simp at hr
    | dollar =>
      simp only [runRE] at hr
      split at hr
      · simp only [List.mem_singleton] at hr; subst hr; exact hc
      · simp at hr

theorem upperAZ_not_space (c : Char) (h : isUpperAZ c = true) : isSpacePy c = false := by
  by_contra hw
  rw [Bool.not_eq_false] at hw
  simp only [isSpacePy, Bool.or_eq_true, beq_iff_eq] at hw
  rcases hw with ((((h1 | h1) | h1) | h1) | h1) | h1 <;> subst h1 <;> exact absurd h (by decide)

theorem dotChar_not_space (c : Char) (h : (c == '.') = true) : isSpacePy c = false := by
  rw [beq_iff_eq] at h
  subst h
  decide

theorem consumes_head_pred (s : Str) (p : Char → Bool) (b : RE)
    (hp : ∀ c, p c = true → isSpacePy c = false) :
    ConsumesNonWs s (.cat (.pred p) b) := by
  intro f pos caps r hr
  match f with
  | 0 => simp [runRE] at hr
  | f + 1 =>
    simp only [runRE, List.mem_flatMap] at hr
    obtain ⟨m, hm, hr⟩ := hr
    match f with
    | 0 => simp [runRE] at hm
    | f + 1 =>
      simp only [runRE] at hm
      rcases hcc : s[pos]? with _ | c <;> rw [hcc] at hm <;> dsimp only at hm
      · simp at hm
      · by_cases hpc : p c
        · rw [if_pos hpc] at hm
          simp only [List.mem_singleton] at hm
          subst hm
          have hmono := runRE_mono s (f + 1) b (pos + 1) caps r hr
          exact ⟨pos, c, le_refl _, by omega, hcc, hp c hpc⟩
        · rw [if_neg hpc] at hm; simp at hm

theorem consumes_mid_pred (s : Str) (A : RE) (p : Char → Bool) (B : RE)
    (hp : ∀ c, p c = true → isSpacePy c = false) :
    ConsumesNonWs s (.cat A (.cat (.pred p) B)) := by
  intro f pos caps r hr
  match f with
  | 0 => simp [runRE] at hr
  | f + 1 =>
    simp only [runRE, List.mem_flatMap] at hr
    obtain ⟨m, hmA, hr⟩ := hr
    have hposm : pos ≤ m.1 := runRE_mono s f A pos caps m hmA
    match f with
    | 0 => simp [runRE] at hr
    | f + 1 =>
      simp only [runRE, List.mem_flatMap] at hr
      obtain ⟨m2, hm2, hr⟩ := hr
      match f with
      | 0 => simp [runRE] at hm2
      | f + 1 =>
        simp only [runRE] at hm2
        rcases hcc : s[m.1]? with _ | c <;> rw [hcc] at hm2 <;> dsimp only at hm2
        · simp at hm2
        · by_cases hpc : p c
          · rw [if_pos hpc] at hm2
            simp only [List.mem_singleton] at hm2
            subst hm2
            have hmono := runRE_mono s (f + 1) B (m.1 + 1) m.2 r hr
            exact ⟨m.1, c, hposm, by omega, hcc, hp c hpc⟩
          · rw [if_neg hpc] at hm2; simp at hm2

theorem grp3_refPat1 (s : Str) : Grp3NonWs s refPat1 := by
  simp only [refPat1, reCat, List.foldr, chr, litS, litCI, List.map, rplus, rplusLazy, ropt,
    reps, authorRE, body23, term23, wsStar, digitPlus, nonDot, anyNoNl, anyAll, Grp3NonWs]
  repeat' constructor
  all_goals intro h3
  all_goals
    first
      | exact absurd h3 (by decide)
      | exact consumes_head_pred _ _ _ upperAZ_not_space

theorem grp3_refPat2 (s : Str) : Grp3NonWs s refPat2 := by
  simp only [refPat2, reCat, List.foldr, chr, litS, litCI, List.map, rplus, rplusLazy, ropt,
    reps, authorRE, body23, term23, wsStar, digitPlus, nonDot, anyNoNl, anyAll, Grp3NonWs]
  repeat' constructor
  all_goals intro h3
  all_goals
    first
      | exact absurd h3 (by decide)
      | exact consumes_head_pred _ _ _ upperAZ_not_space
      | exact consumes_mid_pred _ _ _ _ dotChar_not_space

theorem grp3_refPat3 (s : Str) : Grp3NonWs s refPat3 := by
  simp only [refPat3, reCat, List.foldr, chr, litS, litCI, List.map, rplus, rplusLazy, ropt,
    reps, authorRE, body23, term23, wsStar, digitPlus, nonDot, anyNoNl, anyAll, Grp3NonWs]
  repeat' constructor
  all_goals intro h3
  all_goals
    first
      | exact absurd h3 (by decide)
      | exact consumes_head_pred _ _ _ upperAZ_not_space
      | exact consumes_mid_pred _ _ _ _ dotChar_not_space

theorem mem_dropWhile_of_not (p : Char → Bool) (c : Char) :
    ∀ l : Str, c ∈ l → p c = false → c ∈ l.dropWhile p := by
  intro l
  induction l with
  | nil => intro h; simp at h
  | cons x xs ih =>
    intro hc hp
    rw [List.dropWhile_cons]
    by_cases hx : p x = true
    · rw [if_pos hx]
      rcases List.mem_cons.mp hc with h | h
      · subst h; rw [hx] at hp; exact absurd hp (by simp)
      · exact ih h hp
    · rw [if_neg hx]
      exact hc

theorem pyStrip_mem (l : Str) (c : Char) (hc : c ∈ l) (hw : isSpacePy c = false) :
    c ∈ pyStrip l := by
  unfold pyStrip pyStripEnd
  have h1 : c ∈ l.dropWhile isSpacePy := mem_dropWhile_of_not _ _ l hc hw
  have h2 : c ∈ (l.dropWhile isSpacePy).reverse := List.mem_reverse.mpr h1
  have h3 : c ∈ (l.dropWhile isSpacePy).reverse.dropWhile isSpacePy :=
    mem_dropWhile_of_not _ _ _ h2 hw
  exact List.mem_reverse.mpr h3

theorem pyStrip_ne_nil (l : Str) (c : Char) (hc : c ∈ l) (hw : isSpacePy c = false) :
    pyStrip l ≠ [] :=
  List.ne_nil_of_mem (pyStrip_mem l c hc hw)

theorem mem_slice (s : Str) (a b k : Nat) (c : Char)
    (h1 : a ≤ k) (h2 : k < b) (hk : s[k]? = some c) : c ∈ slice s a b := by
  unfold slice
  have hd : (s.drop a)[k - a]? = some c := by
    rw [List.getElem?_drop]
    rwa [show a + (k - a) = k by omega]
  have ht : ((s.drop a).take (b - a))[k - a]? = some c := by
    rw [List.getElem?_take_of_lt (by omega)]
    exact hd
  have hlt : k - a < ((s.drop a).take (b - a)).length := by
    rcases List.getElem?_eq_some_iff.mp ht with ⟨hh, _⟩
    exact hh
  rcases List.getElem?_eq_some_iff.mp ht with ⟨hh, hEq⟩
  rw [← hEq]
  exact List.getElem_mem hh

theorem mem_foldl_append {α β : Type} (g : β → List α) (l : List β) :
    ∀ (acc : List α) (x : α), x ∈ l.foldl (fun acc p => acc ++ g p) acc →
      x ∈ acc ∨ ∃ p ∈ l, x ∈ g p := by
  induction l with
  | nil => intro acc x h; simp at h; exact Or.inl h
  | cons b bs ih =>
    intro acc x h
    rw [List.foldl_cons] at h
    rcases ih (acc ++ g b) x h with h2 | ⟨p, hp, hx⟩
    · rcases List.mem_append.mp h2 with h3 | h3
      · exact Or.inl h3
      · exact Or.inr ⟨b, List.mem_cons_self b bs, h3⟩
    · exact Or.inr ⟨p, List.mem_cons_of_mem b hp, hx⟩

theorem fallback_text_ne_nil :
    ∀ (ls : List Str) (cur : Str) (r : Reference), r ∈ fallback_refs_loop ls cur →
      r.text ≠ [] := by
  intro ls
  induction ls with
  | nil =>
    intro cur r h
    rw [fallback_refs_loop] at h
    split at h
    · simp at h
    · rename_i hcur
      simp only [List.mem_singleton] at h
      subst h
      simpa [fb_ref, List.isEmpty_iff] using hcur
  | cons l ls ih =>
    intro cur r h
    rw [fallback_refs_loop] at h
    split at h
    · exact ih cur r h
    · split at h
      · rcases List.mem_append.mp h with h2 | h2
        · split at h2
          · simp at h2
          · rename_i hcur
            simp only [List.mem_singleton] at h2
            subst h2
            simpa [fb_ref, List.isEmpty_iff] using hcur
        · exact ih _ r h2
      · exact ih _ r h

theorem pyJoin_head_ne (sep : Str) (x : Str) (xs : List Str) (hx : x ≠ []) :
    pyJoin sep (x :: xs) ≠ [] := by
  cases xs with
  | nil => simpa [pyJoin] using hx
  | cons y ys =>
    simp only [pyJoin]
    intro h
    exact hx (List.append_eq_nil.mp (List.append_eq_nil.mp h).1).1

theorem grobid_text_empty_fields (a y t d : Str)
    (h : pyJoin ((". ").data)
        ((if a.isEmpty then [] else [a]) ++
          (if y.isEmpty then [] else ['(' :: (y ++ [')'])]) ++
          (if t.isEmpty then [] else [t]) ++
          (if d.isEmpty then [] else [("DOI: ").data ++ d])) = []) :
    a = [] ∧ y = [] ∧ t = [] ∧ d = [] := by
  by_cases ha : a.isEmpty <;> by_cases hy : y.isEmpty <;> by_cases ht2 : t.isEmpty <;>
      by_cases hd : d.isEmpty <;>
    simp only [ha, hy, ht2, hd, if_true, if_false, List.nil_append, List.append_nil,
      List.cons_append, eq_self_iff_true, if_pos, if_neg, Bool.not_eq_true] at h ⊢ <;>
    first
      | exact absurd h (pyJoin_head_ne _ _ _ (by simp_all [List.isEmpty_iff]))
      | exact absurd h (pyJoin_head_ne _ _ _ (by simp))
      | (refine ⟨?_, ?_, ?_, ?_⟩ <;> simp_all [List.isEmpty_iff])



theorem pattern_text_ne_nil (sec : Str) (p : RE) (hg : Grp3NonWs sec p)
    (r : Reference) (hr : r ∈ pattern_family_refs sec p) : r.text ≠ [] := by
  rcases List.mem_filterMap.mp hr with ⟨m, hm, hmk⟩
  have hrun := reFindIter_sound sec p m hm
  have hcap : CapNonWs sec m.caps :=
    runRE_capNonWs sec (engineFuel sec) p m.mstart caps0 (m.mstop, m.caps) hg
      (capNonWs_caps0 sec) hrun
  unfold mkPatternRef at hmk
  dsimp only at hmk
  split at hmk
  · rename_i hcond
    rw [Option.some.injEq] at hmk
    subst hmk
    dsimp only
    rw [Bool.and_eq_true] at hcond
    have hc3 := hcond.2
    rcases hslot : m.caps[2]? with _ | slot
    · unfold groupStr at hc3
      rw [hslot] at hc3
      simp [pyTruthy] at hc3
    · rcases slot with _ | ⟨a, b⟩
      · unfold groupStr at hc3
        rw [hslot] at hc3
        simp [pyTruthy] at hc3
      · obtain ⟨k, c, hak, hkb, hkc, hwc⟩ := hcap a b hslot
        have hmem : c ∈ slice sec a b := mem_slice sec a b k c hak hkb hkc
        have hg3 : groupStr sec m 3 = some (slice sec a b) := by
          unfold groupStr
          rw [hslot]
        rw [hg3]
        exact pyStrip_ne_nil _ c hmem hwc
  · exact Option.noConfusion hmk

/-- Claim C3, amended: every reference produced by the pattern matchers and
by the fallback line-accumulation path has non-empty `text`; a GROBID
reference may have empty `text`, and that happens only when the entry
yielded no author, year, title or DOI (all four present as empty strings). -/
theorem C3_amended :
    (∀ (text : Str) (r : Reference), r ∈ extract_references_with_patterns text →
        r.text ≠ []) ∧
    (∀ (tei : Str) (r : Reference), r ∈ grobid_parse_refs tei → r.text = [] →
        r.author = some [] ∧ r.year = some [] ∧ r.title = some [] ∧ r.doi = some []) := by
  constructor
  · intro text r hr
    unfold extract_references_with_patterns at hr
    dsimp only at hr
    split at hr
    · exact fallback_text_ne_nil _ [] r hr
    · rcases mem_foldl_append _ _ [] r hr with h | ⟨p, hp, hx⟩
      · simp at h
      · have hg : Grp3NonWs (ref_section_of text) p := by
          simp only [reference_patterns, List.mem_cons, List.not_mem_nil, or_false] at hp
          rcases hp with h1 | h1 | h1 <;> subst h1
          · exact grp3_refPat1 _
          · exact grp3_refPat2 _
          · exact grp3_refPat3 _
        exact pattern_text_ne_nil _ p hg r hx
  · intro tei r hr ht
    rcases List.mem_map.mp hr with ⟨m, hm, hmk⟩
    subst hmk
    unfold grobid_ref_of at ht ⊢
    dsimp only at ht ⊢
    have := grobid_text_empty_fields _ _ _ _ ht
    refine ⟨?_, ?_, ?_, ?_⟩ <;> rw [Option.some.injEq]
    · exact this.1
    · exact this.2.1
    · exact this.2.2.1
    · exact this.2.2.2

/-- Claim C6, counterexample: on the spec's exact two-entry numbered input
the parser does yield two references, but their `ref_num` values are `1`
and `Doe, A.` — not `1` and `2` as the claim states. -/
theorem C6_counterexample :
    (extract_references_with_patterns c6txt).map Reference.ref_num ≠
      [some (("1").data), some (("2").data)] := by
  decide

/-- Claim C6, amended: on the exact input the parser yields two references;
the first comes from the numbered matcher with `ref_num` 1 and year 2020
but its text swallows both entries (the negated character classes of the
numbered regex cross the newline), and the second comes from the
author-leading matcher with `ref_num` `Doe, A.` and year 2019. -/
theorem C6_amended :
    extract_references_with_patterns c6txt =
      [ { ref_num := some (("1").data)
          text := ("Smith, J. A Great Paper. 2020.\n[2] Doe, A. Another Paper. 2019").data
          author := some (("Smith, J").data)
          year := some (("2020").data)
          title := none
          doi := some [] }
      , { ref_num := some (("Doe, A.").data)
          text := ("Another Paper. 2019.").data
          author := some (("Another Paper").data)
          year := some (("2019").data)
          title := none
          doi := some [] } ] := by
  decide

/-- Claim C9, counterexample: both references parsed from the bare-DOI entry
have entry text ending in the bare DOI `10.1234/abcd.5678`, yet their `doi`
field is the empty string — a bare DOI without a `doi` prefix is not
captured. -/
theorem C9_counterexample :
    (extract_references_with_patterns c9bare).map Reference.text =
      [ (("Title. ").data) ++ (("10.1234/abcd.5678").data)
      , (("Title. ").data) ++ (("10.1234/abcd.5678").data) ] ∧
    (extract_references_with_patterns c9bare).map Reference.doi = [some [], some []] := by
  constructor
  · decide
  · decide

/-- Claim C9, amended: a DOI written with a (case-insensitive) `doi:` prefix
is captured into the `doi` field, as on the spec's example entry; a bare
`10.NNNN/...` string without the `doi` prefix is not captured, leaving the
`doi` field as the empty string. -/
theorem C9_amended :
    (extract_references_with_patterns c9doc).map Reference.doi =
      [some (("10.1234/abcd.5678").data), some (("10.1234/abcd.5678").data)] ∧
    (extract_references_with_patterns c9bare).map Reference.doi = [some [], some []] := by
  constructor
  · decide
  · decide

/-- Claim C5, counterexample: on the two-entry numbered input the numbered
matcher (first family) produces one record, yet the returned sequence also
contains the record of the author-leading matcher (third family): results
of two different matcher families are mixed in one call, nothing is
discarded. -/
theorem C5_counterexample :
    (pattern_family_refs (ref_section_of c6txt) refPat1).length = 1 ∧
    (pattern_family_refs (ref_section_of c6txt) refPat3).length = 1 ∧
    extract_references_with_patterns c6txt =
      pattern_family_refs (ref_section_of c6txt) refPat1 ++
        pattern_family_refs (ref_section_of c6txt) refPat3 := by
  refine ⟨by decide, by decide, by decide⟩

/-- Claim C8, counterexample: the first reference parsed from an entry with
no year and no DOI has `year` and `doi` present as empty strings, not
absent. -/
theorem C8_counterexample :
    (extract_references_with_patterns c8txt).head?.map Reference.year = some (some []) ∧
    (extract_references_with_patterns c8txt).head?.map Reference.doi = some (some []) := by
  constructor
  · decide
  · decide

/-- Claim C3, counterexample: a GROBID extraction over a `biblStruct` that
yields no author, year, title or DOI returns (through `_run`) a reference
whose `text` field is the empty string. -/
theorem C3_counterexample :
    ((run envTei (("a.pdf").data) none).1.references).map Reference.text = [[]] := by
  decide

/-- Claim C4: on a remote PDF URL whose download fails while the response
body is being streamed (after the temporary file was created with
`delete=False`), `_run` returns an error result but the temporary file is
still on disk: the `is_temp_file` flag is assigned only when the download
call returns, so the `finally` cleanup never sees the file. -/
theorem C4_temp_file_leak :
    (run envLeak (("http://x/a.pdf").data) none).2 = true ∧
    ((run envLeak (("http://x/a.pdf").data) none).1.error).isSome = true := by
  constructor
  · rfl
  · rfl

/-- Claim C10: an empty `content_text` is falsy, so `_run` behaves exactly
as if no content text was supplied and processes `input_source` instead. -/
theorem C10_empty_content_text (env : Env) (input_source : Str) :
    run env input_source (some []) = run env input_source none := rfl

/-- Every successful outcome of the `try` body carries `count` equal to the
length of its reference list: each `return` site writes
`count := len(references)` (or the literal `0` next to `[]`). -/
theorem run_try_body_ok_count (env : Env) (input_source : Str) (content_text : Option Str)
    (out : Except Str RunResult) (itf fs : Bool) (r : RunResult)
    (hrt : run_try_body env input_source content_text = (out, itf, fs))
    (hr : out = .ok r) : r.count = r.references.length := by
  rw [hr] at hrt
  unfold run_try_body at hrt
  repeat' split at hrt
  all_goals (try (simp only [Prod.mk.injEq, Except.ok.injEq] at hrt))
  all_goals (try (repeat' split at hrt))
  all_goals (try (simp only [Prod.mk.injEq, Except.ok.injEq] at hrt))
  all_goals (obtain ⟨h1, -, -⟩ := hrt)
  all_goals (first | exact Except.noConfusion h1 | (subst h1; dsimp only; try rfl))

/-- The result dictionary of `run` is the `try` body's result on success and
the `handle_error` conversion on a raised exception. -/
theorem run_fst (env : Env) (input_source : Str) (content_text : Option Str) :
    (run env input_source content_text).1 =
      (match (run_try_body env input_source content_text).1 with
        | .ok r => r
        | .error e => { error := some (handle_error e), references := [], count := 0 }) := by
  rcases h : run_try_body env input_source content_text with ⟨out, itf, fs⟩
  cases out <;> simp [run, h]

/-- Claim C2: on every return path of `_run` the `count` field equals the
length of the `references` sequence. -/
theorem C2_count_eq_length (env : Env) (input_source : Str) (content_text : Option Str) :
    (run env input_source content_text).1.count =
      (run env input_source content_text).1.references.length := by
  rw [run_fst]
  rcases h : (run_try_body env input_source content_text).1 with e | r
  · simp
  · have h2 : run_try_body env input_source content_text =
        (Except.ok r, (run_try_body env input_source content_text).2.1,
          (run_try_body env input_source content_text).2.2) := by
      rw [← h]
    exact run_try_body_ok_count env input_source content_text (Except.ok r) _ _ r h2 rfl

/-- Claim C1: `_run` is total, and whenever its `try` body raises, the
caller receives the dictionary with an empty reference list, `count = 0`
and the non-empty `handle_error` message — never a propagated exception. -/
theorem C1_error_conversion (env : Env) (input_source : Str) (content_text : Option Str)
    (e : Str) (h : (run_try_body env input_source content_text).1 = .error e) :
    (run env input_source content_text).1 =
      { error := some (handle_error e), references := [], count := 0, source := none } ∧
    handle_error e ≠ [] := by
  constructor
  · rcases hrt : run_try_body env input_source content_text with ⟨out, itf, fs⟩
    rw [hrt] at h
    simp at h
    subst h
    simp [run, hrt]
  · intro hc
    unfold handle_error at hc
    have h2 := (List.append_eq_nil.mp hc).1
    exact absurd h2 (by decide)

/-- Claim C1, witness: a GROBID-enabled call on a local PDF path that does
not exist raises inside the body and is converted, not propagated. -/
theorem C1_witness :
    (run envNoFile (("a.pdf").data) none).1 =
      { error := some (handle_error (msg_grobid_wrap msg_pdf_not_found)), references := [],
        count := 0, source := none } ∧
    handle_error (msg_grobid_wrap msg_pdf_not_found) ≠ [] :=
  C1_error_conversion envNoFile (("a.pdf").data) none (msg_grobid_wrap msg_pdf_not_found)
    (by rfl)

/-- Claim C7, counterexample: `doc.PDF` ends in `.pdf` case-insensitively,
yet the branch condition is false and `_run` treats the input string itself
as plain text (the configured PDF-tool error `PDFERR` is never surfaced;
the fallback parser runs on the string `doc.PDF` instead). -/
theorem C7_counterexample :
    strEnds ((("doc.PDF").data).map Char.toLower) ((".pdf").data) = true ∧
    is_pdf_input (("doc.PDF").data) = false ∧
    (run envPdfErr (("doc.PDF").data) none).1 =
      { references := [fb_ref ((" doc.PDF").data)], count := 1,
        source := some (("doc.PDF").data) } := by
  refine ⟨by decide, by decide, by decide⟩

/-- Claim C7, amended: the suffix comparison is case-sensitive — an
`input_source` ending in lowercase `.pdf`, with no content text, takes the
PDF branch (here: the non-GROBID branch surfacing the PDF tool's error). -/
theorem C7_amended (env : Env) (input_source : Str) (content_text : Option Str) (e : Str)
    (hend : strEnds input_source ((".pdf").data) = true)
    (hct : content_truthy content_text = false)
    (hg : env.use_grobid = false)
    (hpdf : env.pdfTool = .ok { error := some e, content := none })
    (he : e ≠ []) :
    is_pdf_input input_source = true ∧
    (run env input_source content_text).1 =
      { error := some e, references := [], count := 0, source := none } := by
  have hp : is_pdf_input input_source = true := by
    simp [is_pdf_input, hend]
  have hemp : e.isEmpty = false := by
    simp [List.isEmpty_iff, he]
  refine ⟨hp, ?_⟩
  unfold run run_try_body
  rw [hct, hp, hg, hpdf]
  simp [pyTruthy, hemp]

/-- Claim C7, witness: a lowercase `.pdf` input takes the PDF branch and
surfaces the PDF tool's error. -/
theorem C7_witness :
    is_pdf_input (("a.pdf").data) = true ∧
    (run envPdfErr (("a.pdf").data) none).1 =
      { error := some (("PDFERR").data), references := [], count := 0, source := none } :=
  C7_amended envPdfErr (("a.pdf").data) none (("PDFERR").data) (by decide) (by decide)
    (by decide) (by rfl) (by decide)

/-- Claim C5, amended: all three matcher families are applied to the located
section and their records concatenated in family order, so records of
different families can mix; only the fallback line-accumulation output is
conditional — it is used exactly when all three families produced no record
and the section is truthy. -/
theorem C5_amended (text : Str) :
    extract_references_with_patterns text =
      (if (pattern_family_refs (ref_section_of text) refPat1 ++
            pattern_family_refs (ref_section_of text) refPat2 ++
            pattern_family_refs (ref_section_of text) refPat3).isEmpty
          && !(ref_section_of text).isEmpty
        then fallback_refs_loop (pySplitCh '\n' (ref_section_of text)) []
        else
          pattern_family_refs (ref_section_of text) refPat1 ++
            pattern_family_refs (ref_section_of text) refPat2 ++
            pattern_family_refs (ref_section_of text) refPat3) := by
  unfold extract_references_with_patterns reference_patterns
  dsimp only
  rw [List.foldl_cons, List.foldl_cons, List.foldl_cons, List.foldl_nil,
    List.nil_append, List.append_assoc]

/-- Claim C8, amended: records built by the pattern matchers always carry
`ref_num`, `author`, `year` and `doi` keys (empty string when undetermined)
and never a `title` key; GROBID records always carry all five keys, also
with empty strings when undetermined.  Only the fallback path omits the
optional keys, so presence does not distinguish found from not found. -/
theorem C8_amended :
    (∀ (sec : Str) (p : RE) (r : Reference), p ∈ reference_patterns →
        r ∈ pattern_family_refs sec p →
        r.ref_num.isSome ∧ r.author.isSome ∧ r.year.isSome ∧ r.doi.isSome ∧ r.title = none) ∧
    (∀ (tei : Str) (r : Reference), r ∈ grobid_parse_refs tei →
        r.ref_num.isSome ∧ r.author.isSome ∧ r.year.isSome ∧ r.title.isSome ∧ r.doi.isSome) := by
  constructor
  · intro sec p r hp hr
    rcases List.mem_filterMap.mp hr with ⟨m, hm, hmk⟩
    unfold mkPatternRef at hmk
    dsimp only at hmk
    split at hmk
    · rw [Option.some.injEq] at hmk
      subst hmk
      refine ⟨rfl, rfl, rfl, rfl, rfl⟩
    · exact Option.noConfusion hmk
  · intro tei r hr
    rcases List.mem_map.mp hr with ⟨m, hm, hmk⟩
    subst hmk
    unfold grobid_ref_of
    refine ⟨rfl, rfl, rfl, rfl, rfl⟩

/-- Claim C8, witness: the concrete numbered-matcher record on `c8txt` has
all four optional keys present (its undetermined year and DOI as empty
strings) and no title key. -/
theorem C8_witness :
    c8ref.ref_num.isSome ∧ c8ref.author.isSome ∧ c8ref.year.isSome ∧ c8ref.doi.isSome ∧
      c8ref.title = none :=
  C8_amended.1 (ref_section_of c8txt) refPat1 c8ref (by simp [reference_patterns]) (by decide)

/-- Claim C3, witness: the fallback record on input `doc.PDF` has non-empty
text, and the GROBID record of the field-less `biblStruct` entry (whose
text is empty) indeed has all four optional fields equal to the empty
string. -/
theorem C3_witness :
    (fb_ref ((" doc.PDF").data)).text ≠ [] ∧
    (teiRef.author = some [] ∧ teiRef.year = some [] ∧ teiRef.title = some [] ∧
      teiRef.doi = some []) :=
  ⟨C3_amended.1 (("doc.PDF").data) (fb_ref ((" doc.PDF").data)) (by decide),
    C3_amended.2 teiEmptyEntry teiRef (by decide) (by decide)⟩

end DeepScholar
